import Mathlib

/-!
Verification of the orchestration core of `environmentbase.py`
(schema-driven config validation, parent/child template composition,
create-or-update deployment, and the stack-event monitor loop).

Python dictionaries are embedded as ordered association lists
(`List (String × _)`); a Python dict has unique keys and `d[k]` is the
first (and only) binding, embedded as `lookupFirst`.  Machine integers do
not occur in the modelled code paths; Python integers are `Int`/`Nat`.
-/

namespace EnvBase

/-- First binding of a key in an association list (Python dict lookup). -/
def lookupFirst {β : Type} : List (String × β) → String → Option β
  | [], _ => none
  | (k, v) :: rest, key => if k = key then some v else lookupFirst rest key

/-- Python dict assignment `d[k] = v`: overwrite the binding in place if the
key exists, otherwise append a new binding. -/
def dictInsert {β : Type} : List (String × β) → String → β → List (String × β)
  | [], k, v => [(k, v)]
  | (k', v') :: rest, k, v =>
      if k' = k then (k, v) :: rest else (k', v') :: dictInsert rest k v

/-- Python `base.update(upd)`: fold dict assignment over the entries of
`upd` (later entries overwrite earlier ones sharing a key). -/
def dictUpdate {β : Type} (base upd : List (String × β)) : List (String × β) :=
  upd.foldl (fun acc kv => dictInsert acc kv.1 kv.2) base

/-! ## Glob matching (`fnmatch.fnmatch`)

`_validate_config_helper` matches schema keys against config keys with
Python `fnmatch` (`?`, `*`, `[...]`, `[!...]`; an unterminated `[` is a
literal; the whole string must match).  We mirror its
compile-then-match structure; the compiler carries a character budget
(each step consumes at least one pattern character, so a budget equal to
the pattern length is always enough) purely to make the recursion
structural. -/

/-- One compiled pattern element. -/
inductive Tok where
  | lit (c : Char)
  | anyOne
  | star
  | bracket (negated : Bool) (content : List Char)
deriving DecidableEq

/-- Scan for the closing `]` of a bracket expression, returning the content
before it and the remainder after it. -/
def findClose : List Char → Option (List Char × List Char)
  | [] => none
  | c :: cs =>
      if c = ']' then some ([], cs)
      else (findClose cs).map (fun p => (c :: p.1, p.2))

/-- Compile a glob pattern into tokens, following `fnmatch.translate`:
after `[` an optional `!` negates, an immediately following `]` is a
literal member of the set, and a bracket with no closing `]` is a
literal `[`. -/
def compileGlob : Nat → List Char → List Tok
  | 0, _ => []
  | _, [] => []
  | f + 1, '*' :: rest => .star :: compileGlob f rest
  | f + 1, '?' :: rest => .anyOne :: compileGlob f rest
  | f + 1, '[' :: rest =>
      let nb : Bool × List Char :=
        match rest with
        | '!' :: t => (true, t)
        | _ => (false, rest)
      (match nb.2 with
       | ']' :: t =>
           match findClose t with
           | some (content, remainder) =>
               .bracket nb.1 (']' :: content) :: compileGlob f remainder
           | none => .lit '[' :: compileGlob f rest
       | _ =>
           match findClose nb.2 with
           | some (content, remainder) =>
               .bracket nb.1 content :: compileGlob f remainder
           | none => .lit '[' :: compileGlob f rest)
  | f + 1, c :: rest => .lit c :: compileGlob f rest

/-- Membership in a bracket set: `a-b` denotes a code-point range unless the
dash is first or last in the set (regular-expression character-class
semantics, which is what `fnmatch.translate` compiles to). -/
def bracketHas : List Char → Char → Bool
  | [], _ => false
  | a :: '-' :: b :: rest, c => (a ≤ c && c ≤ b) || bracketHas rest c
  | a :: rest, c => (a = c) || bracketHas rest c

/-- Match compiled tokens against the whole input (the translated pattern
is anchored on both ends).  The budget shrinks on every call while
`tokens.length + s.length` also shrinks, so `tokens.length + s.length + 1`
is always a sufficient initial budget. -/
def matchToks : Nat → List Tok → List Char → Bool
  | 0, _, _ => false
  | _ + 1, [], [] => true
  | _ + 1, [], _ :: _ => false
  | f + 1, .star :: ts, s =>
      matchToks f ts s ||
        (match s with
         | [] => false
         | _ :: s' => matchToks f (.star :: ts) s')
  | f + 1, .anyOne :: ts, _ :: s => matchToks f ts s
  | _ + 1, .anyOne :: _, [] => false
  | f + 1, .lit c :: ts, d :: s => c = d && matchToks f ts s
  | _ + 1, .lit _ :: _, [] => false
  | f + 1, .bracket neg content :: ts, d :: s =>
      (bracketHas content d != neg) && matchToks f ts s
  | _ + 1, .bracket _ _ :: _, [] => false

/-- `fnmatch.fnmatch(name, pat)` on a case-preserving platform. -/
def fnmatch (name pat : String) : Bool :=
  let toks := compileGlob pat.length pat.toList
  matchToks (toks.length + name.length + 1) toks name.toList

/-! ## Configuration values and schemas

A configuration tree is a JSON-like value; a schema maps glob patterns to
either a leaf runtime-type requirement or a nested schema
(`isinstance(req_value, basestring)` vs `isinstance(req_value, dict)` in
the source).  The absent `resources` module resolves type-name strings to
Python types via `res.get_type`; we embed the already-resolved runtime
type, which the spec lists as string, integer, boolean, list, mapping. -/

/-- A Python/JSON configuration value. -/
inductive Value where
  | vstr (s : String)
  | vint (n : Int)
  | vbool (b : Bool)
  | vnull
  | vlist (elems : List Value)
  | vmap (entries : List (String × Value))

/-- Modelled from the spec: the runtime types that `res.get_type` (absent
`resources` module) can resolve a schema type-name to — at least string,
integer, boolean, list and mapping. -/
inductive PyType where
  | pystr
  | pyint
  | pybool
  | pylist
  | pydict
deriving DecidableEq

/-- Python `type(value).__name__`, used in mismatch messages. -/
def typeName : Value → String
  | .vstr _ => "str"
  | .vint _ => "int"
  | .vbool _ => "bool"
  | .vnull => "NoneType"
  | .vlist _ => "list"
  | .vmap _ => "dict"

/-- Display label of a required type (the schema type-name string). -/
def typeLabel : PyType → String
  | .pystr => "str"
  | .pyint => "int"
  | .pybool => "bool"
  | .pylist => "list"
  | .pydict => "dict"

/-- Python `isinstance(value, req_type)`.  A Python `bool` is a subclass of
`int`, so a boolean value satisfies an integer requirement. -/
def typeMatches : PyType → Value → Bool
  | .pystr, .vstr _ => true
  | .pyint, .vint _ => true
  | .pyint, .vbool _ => true
  | .pybool, .vbool _ => true
  | .pylist, .vlist _ => true
  | .pydict, .vmap _ => true
  | _, _ => false

/-- A schema requirement: a leaf runtime-type requirement (a type-name
string in the source) or a nested sub-schema. -/
inductive Req where
  | rtype (t : PyType)
  | rschema (sub : List (String × Req))

/-- The error raised by `_validate_config_helper`, with the dotted path it
reports.  `missingSection` carries `path + sep + req_key`; `typeMismatch`
carries `path + sep + matching_key` plus the expected/actual type names. -/
inductive VErr where
  | missingSection (dottedPath : String)
  | typeMismatch (dottedPath : String) (expected actual : String)
deriving DecidableEq

/-- The dotted path an error carries. -/
def VErr.path : VErr → String
  | .missingSection p => p
  | .typeMismatch p _ _ => p

/-- The dotted-path extension from the source: `path` followed by a dot
separator (omitted when `path` is empty) and the key. -/
def joinPath (path key : String) : String :=
  if path = "" then key else path ++ "." ++ key

/-- `dotted` is a dotted path at or below `base`: it extends `base`, and
any proper extension begins with a dot separator. -/
def pathUnder (base dotted : String) : Prop :=
  ∃ s, dotted = base ++ s ∧ (base = "" ∨ s = "" ∨ ∃ t, s = "." ++ t)

/-! `_validate_config_helper(schema, config, path)`.  The source iterates
the schema entries; for each it filters the config keys matching the glob
pattern (raising a missing-section error when none match) and then checks
every match: a leaf requirement is an `isinstance` check, a nested schema
requires a dict value and recurses with the extended path.  The source
filters `config.keys()` and then indexes `config[matching_key]`; as dict
keys are unique this is the same as filtering the key/value pairs, which
is how `matchingEntries` embeds it. -/

/-- The config entries whose key matches the pattern `req_key`. -/
def matchingEntries (config : List (String × Value)) (req_key : String) :
    List (String × Value) :=
  config.filter (fun kv => fnmatch kv.1 req_key)

mutual

/-- `_validate_config_helper`: succeed silently or raise the first
violation. -/
def _validate_config_helper : List (String × Req) → List (String × Value) →
    String → Except VErr Unit
  | [], _, _ => .ok ()
  | (req_key, req_value) :: rest, config, path =>
      let ms := matchingEntries config req_key
      if ms.isEmpty then
        .error (.missingSection (joinPath path req_key))
      else
        match validateMatches req_value ms path with
        | .error e => .error e
        | .ok _ => _validate_config_helper rest config path
termination_by schema _c _p => (sizeOf schema, 0)

/-- The per-match loop body of `_validate_config_helper` (the inner
`for matching_key in matches`). -/
def validateMatches : Req → List (String × Value) → String → Except VErr Unit
  | _, [], _ => .ok ()
  | .rtype t, (matching_key, v) :: ms, path =>
      if typeMatches t v then validateMatches (.rtype t) ms path
      else .error (.typeMismatch (joinPath path matching_key) (typeLabel t)
                     (typeName v))
  | .rschema sub, (matching_key, v) :: ms, path =>
      match v with
      | .vmap m =>
          match _validate_config_helper sub m (joinPath path matching_key) with
          | .error e => .error e
          | .ok _ => validateMatches (.rschema sub) ms path
      | _ => .error (.typeMismatch (joinPath path matching_key) "dict"
                       (typeName v))
termination_by req ms _p => (sizeOf req, ms.length + 1)

end

mutual

/-- The validity predicate stated by the spec: every glob-pattern key in
the schema (transitively, through nested sub-schemas) matches at least one
key of the corresponding config subtree, and the runtime type of every
matched value agrees with the requirement. -/
def specValid : List (String × Req) → List (String × Value) → Bool
  | [], _ => true
  | (pat, req) :: rest, config =>
      (!(matchingEntries config pat).isEmpty &&
        specAllAgree req (matchingEntries config pat)) &&
      specValid rest config
termination_by schema _c => (sizeOf schema, 0)

/-- Spec side: every matched value agrees with the requirement. -/
def specAllAgree : Req → List (String × Value) → Bool
  | _, [] => true
  | req, (_, v) :: ms => specAgrees req v && specAllAgree req ms
termination_by req ms => (sizeOf req, ms.length + 2)

/-- Spec side: the shape/type of a single value agrees with a requirement. -/
def specAgrees : Req → Value → Bool
  | .rtype t, v => typeMatches t v
  | .rschema sub, .vmap m => specValid sub m
  | .rschema _, _ => false
termination_by req _v => (sizeOf req, 1)

end

/-- `_validate_config(config, factory_schema)`: deep-copy the factory
schema, merge in the `get_config_schema()` fragment of every registered handler
by top-level key, then run the helper from the empty path. -/
def _validate_config (config : List (String × Value))
    (factory_schema : List (String × Req))
    (handler_schemas : List (List (String × Req))) : Except VErr Unit :=
  _validate_config_helper
    (handler_schemas.foldl dictUpdate factory_schema) config ""

/-! ## Template composition (`add_child_template`)

The parent troposphere `Template` lives in the absent local `template`
module; we embed just what `add_child_template` touches: its parameter
dict, its resource names, and the instance `stack_outputs` registry.
Parameter declarations are opaque troposphere objects. -/

/-- An opaque troposphere parameter declaration (`Parameter(...)`). -/
structure ParamDecl where
  payload : String
deriving DecidableEq

/-- A CloudFormation value bound to a child parameter: a troposphere
`Ref`, `GetAtt`, the (dubious) `GetAtt` on a list of output names that the
recorded-output rule produces, or a literal manual value. -/
inductive CfnValue where
  | lit (s : String)
  | ref (target : String)
  | getAtt (target : String) (attr : String)
  | getAttList (targets : List String) (attr : String)
deriving DecidableEq

/-- The parent-side state mutated by `add_child_template`: the root
parameter dict of the root template, its resource names, and the `stack_outputs`
registry mapping child template name to recorded output names. -/
structure ParentState where
  parameters : List (String × ParamDecl)
  resources : List String
  stack_outputs : List (String × List String)
deriving DecidableEq

/-- A child template as the parameter-binding loop sees it: its `name`
and its declared parameters (already extended by
`add_common_params_to_child_template`, which only touches the child). -/
structure ChildTemplate where
  name : String
  parameters : List (String × ParamDecl)
deriving DecidableEq

/-- One step of the binding loop in `add_child_template`: resolve the
declared child parameter `p` with the precedence chain of the source —
1. manual binding, 2. `availabilityZone<N>` convention, 3. parent
parameter of the same name, 4. parent resource of the same name,
5. `stack_outputs` registry key, 6. pass-through: copy the declaration
onto the parent (`self.template.add_parameter`) and bind a `Ref` to it. -/
def resolveChildParam (manual_parameter_bindings : List (String × CfnValue))
    (st : ParentState) (p : String) (decl : ParamDecl) :
    CfnValue × ParentState :=
  match lookupFirst manual_parameter_bindings p with
  | some v => (v, st)
  | none =>
    if p.startsWith "availabilityZone" then
      (.getAtt ("privateSubnet" ++ (p.replace "availabilityZone" ""))
         "AvailabilityZone", st)
    else if (lookupFirst st.parameters p).isSome then
      (.ref p, st)
    else if st.resources.contains p then
      (.ref p, st)
    else
      match lookupFirst st.stack_outputs p with
      | some outs => (.getAttList outs ("Outputs." ++ p), st)
      | none =>
          (.ref p, { st with parameters := st.parameters ++ [(p, decl)] })

/-- One iteration of the binding loop: resolve the next declared child
parameter against the current parent state and record its binding. -/
def resolveStep (manual_parameter_bindings : List (String × CfnValue))
    (acc : ParentState × List (String × CfnValue))
    (pd : String × ParamDecl) : ParentState × List (String × CfnValue) :=
  let r := resolveChildParam manual_parameter_bindings acc.1 pd.1 pd.2
  (r.2, acc.2 ++ [(pd.1, r.1)])

/-- The binding loop of `add_child_template` over the declared child
parameters, accumulating the `stack_params` map in declaration order. -/
def resolveAllParams (manual_parameter_bindings : List (String × CfnValue))
    (childParams : List (String × ParamDecl)) (st : ParentState) :
    ParentState × List (String × CfnValue) :=
  childParams.foldl (resolveStep manual_parameter_bindings) (st, [])

/-- A child parameter name is covered by one of the five non-mutating
rules of the precedence chain (everything before pass-through): a manual
binding, the availability-zone convention, a parent parameter, a parent
resource, or a registry entry. -/
def ruleGuard (manual_parameter_bindings : List (String × CfnValue))
    (st : ParentState) (p : String) : Prop :=
  (lookupFirst manual_parameter_bindings p).isSome = true
  ∨ p.startsWith "availabilityZone" = true
  ∨ (lookupFirst st.parameters p).isSome = true
  ∨ st.resources.contains p = true
  ∨ (lookupFirst st.stack_outputs p).isSome = true

/-- `if name not in self.stack_outputs: self.stack_outputs[name] = []`
from `add_child_template`. -/
def soInsert (st : ParentState) (name : String) : ParentState :=
  { st with stack_outputs :=
      if (lookupFirst st.stack_outputs name).isSome then st.stack_outputs
      else st.stack_outputs ++ [(name, [])] }

/-- `self.template.add_resource(stack_obj)` (absent `template` module):
dict-style insertion of the stack resource name, a no-op on the name set
when the name is already present. -/
def resInsert (st : ParentState) (rname : String) : ParentState :=
  { st with resources :=
      if st.resources.contains rname then st.resources
      else st.resources ++ [rname] }

/-- `add_child_template(template)`: record the child in `stack_outputs`
(if absent), resolve every declared child parameter, then add the
`<name>Stack` stack resource to the parent template.  Upload, build hook
and the common-parameter mutation of the child are collaborator calls
that do not touch the parent state. -/
def add_child_template (st : ParentState)
    (manual_parameter_bindings : List (String × CfnValue))
    (child : ChildTemplate) : ParentState × List (String × CfnValue) :=
  let r := resolveAllParams manual_parameter_bindings child.parameters
    (soInsert st child.name)
  (resInsert r.1 (child.name ++ "Stack"), r.2)

/-! ## Deployment (`_ensure_stack_is_deployed`)

The cloud API raises `botocore.exceptions.ClientError`; the code first
tries `update_stack`, on any `ClientError` falls back to `create_stack`
with `DisableRollback=True` and `TimeoutInMinutes=TIMEOUT` (60), and on a
`ClientError` from that prints `[Create failed], <msg> ... Exiting` and
falls off the end of the method without raising. -/

/-- `TIMEOUT = 60` from the source module. -/
def TIMEOUT : Nat := 60

/-- A `botocore.exceptions.ClientError` with its error code and message. -/
structure ClientError where
  code : String
  msg : String
deriving DecidableEq

/-- Outcome of a single cloud API call in the test harness sense: either
it returns, or it raises a `ClientError`.  (Exception types other than
`ClientError` are not caught by the source and simply propagate; they are
outside this model.) -/
inductive ApiOutcome where
  | success
  | clientError (e : ClientError)
deriving DecidableEq

/-- Arguments of a `create_stack` call that the claims inspect. -/
structure CreateCall where
  disableRollback : Bool
  timeoutInMinutes : Nat
deriving DecidableEq

/-- Observable trace of one `_ensure_stack_is_deployed` invocation. -/
structure DeployTrace where
  createCalls : List CreateCall
  printed : List String
  raised : Option ClientError
deriving DecidableEq

/-- `_ensure_stack_is_deployed(stack_name, ...)` driven by the outcomes
the cloud API would produce for the update and create calls.  The printed
strings follow the source (single quotes around the stack name elided). -/
def _ensure_stack_is_deployed (stack_name : String)
    (updateOutcome createOutcome : ApiOutcome) : DeployTrace :=
  match updateOutcome with
  | .success =>
      { createCalls := []
        printed := ["Updating stack " ++ stack_name ++ " ...",
                    "[Update success]"]
        raised := none }
  | .clientError e =>
      let head := ["Updating stack " ++ stack_name ++ " ...",
                   "[Update failed], " ++ e.msg ++ "\n",
                   "Trying create stack ..."]
      match createOutcome with
      | .success =>
          { createCalls := [{ disableRollback := true
                              timeoutInMinutes := TIMEOUT }]
            printed := head ++ ["Created new CF stack " ++ stack_name ++ "\n"]
            raised := none }
      | .clientError e2 =>
          { createCalls := [{ disableRollback := true
                              timeoutInMinutes := TIMEOUT }]
            printed := head ++
              ["[Create failed], " ++ e2.msg ++ "\nExiting"]
            raised := none }

/-! ## Stack event monitor (`start_stack_monitor`)

Messages arrive on the queue as semi-structured text; the parsed record
(`data` in the source) carries the resource status, type, logical name
and reason, each possibly missing.  Handlers are duck-typed objects with
`handle_stack_event(data) -> bool`; we tag each with an identity `hid`
because Python `list.remove` removes by object identity. -/

/-- The parsed stack event record. -/
structure EventData where
  status : Option String
  rtype : Option String
  name : Option String
  reason : Option String
deriving DecidableEq

/-- A registered stack event handler. -/
structure Handler where
  hid : Nat
  handle_stack_event : EventData → Bool

/-- `TERMINAL_STATES` from `start_stack_monitor`. -/
def TERMINAL_STATES : List String :=
  ["CREATE_COMPLETE", "UPDATE_COMPLETE", "UPDATE_ROLLBACK_COMPLETE",
   "CREATE_FAILED", "UPDATE_FAILED", "UPDATE_ROLLBACK_FAILED"]

/-- The overall-stack terminal condition: the event is about the
own stack resource of the orchestration API, names the target stack, and has a
terminal status. -/
def terminalCond (stack_name : String) (d : EventData) : Bool :=
  d.rtype = some "AWS::CloudFormation::Stack" &&
  d.name = some stack_name &&
  (match d.status with
   | some s => TERMINAL_STATES.contains s
   | none => false)

/-- Python `list.remove`: drop the first element identical to `h`. -/
def removeFirst : List Handler → Handler → List Handler
  | [], _ => []
  | x :: xs, h => if x.hid = h.hid then xs else x :: removeFirst xs h

/-- The handlers dispatched for one event: every handler currently in the
chain, in chain order (the source loop `for handler in
self.stack_event_handlers`). -/
def dispatchRound (handlers : List Handler) : List Nat :=
  handlers.map Handler.hid

/-- Process one parsed message: dispatch to every handler in the chain,
collect the satisfied ones, remove them after the full round, then test
the termination condition. -/
def processEvent (stack_name : String) (handlers : List Handler)
    (is_stack_running : Bool) (d : EventData) : List Handler × Bool :=
  let handlers_to_remove := handlers.filter (fun h => h.handle_stack_event d)
  let handlers := handlers_to_remove.foldl removeFirst handlers
  let is_stack_running :=
    if terminalCond stack_name d then false else is_stack_running
  (handlers, is_stack_running)

/-- Process one received batch of messages (the inner `for raw_msg in
msgs`); every message of the batch is processed even after the
termination condition fires. -/
def processBatch (stack_name : String) (handlers : List Handler)
    (is_stack_running : Bool) (msgs : List EventData) :
    List Handler × Bool :=
  msgs.foldl (fun acc d => processEvent stack_name acc.1 acc.2 d)
    (handlers, is_stack_running)

/-- `poll_timeout = 3600` from the source. -/
def poll_timeout : Nat := 3600

/-- Why the polling loop stopped (which `while` conjunct went false, in
the evaluation order of the source), or that the fed batches ran out with the
loop still prepared to poll. -/
inductive ExitReason where
  | timedOut
  | terminated
  | chainEmpty
  | stillPolling
deriving DecidableEq

/-- The polling loop of `start_stack_monitor`, driven by the finite
sequence of batches the queue would deliver; each batch carries the
elapsed-seconds reading taken at the top of that iteration (the guard for
the next iteration uses the reading of the previous one, as in the
source, which measures elapsed inside the body). -/
def start_stack_monitor (stack_name : String) :
    List (Nat × List EventData) → Nat → Bool → List Handler →
    ExitReason × List Handler
  | batches, elapsed, is_stack_running, handlers =>
      if ¬ elapsed < poll_timeout then (.timedOut, handlers)
      else if ¬ is_stack_running then (.terminated, handlers)
      else if handlers.isEmpty then (.chainEmpty, handlers)
      else
        match batches with
        | [] => (.stillPolling, handlers)
        | (e, msgs) :: rest =>
            let r := processBatch stack_name handlers is_stack_running msgs
            start_stack_monitor stack_name rest e r.2 r.1

/-! ## Handler registration (`add_config_handler`,
`add_stack_event_handler`)

Registration is duck-typed: `add_config_handler` checks that
`get_factory_defaults` and `get_config_schema` exist and are callable;
`add_stack_event_handler` is a bare append.  We embed a candidate object
by its class name and which capabilities it exposes as callables. -/

/-- A duck-typed candidate handler object. -/
structure PyHandlerObj where
  className : String
  hasCallableGetFactoryDefaults : Bool
  hasCallableGetConfigSchema : Bool
  hasCallableHandleStackEvent : Bool
deriving DecidableEq

/-- `add_config_handler(handler)`: reject with a `ValidationError` naming
the class and the missing method, otherwise append. -/
def add_config_handler (config_handlers : List PyHandlerObj)
    (handler : PyHandlerObj) : Except String (List PyHandlerObj) :=
  if ¬ handler.hasCallableGetFactoryDefaults then
    .error ("Class " ++ handler.className ++
      " cannot be a config handler, missing get_factory_defaults()")
  else if ¬ handler.hasCallableGetConfigSchema then
    .error ("Class " ++ handler.className ++
      " cannot be a config handler, missing get_config_schema()")
  else
    .ok (config_handlers ++ [handler])

/-- `add_stack_event_handler(handler)`: a bare append with no capability
check. -/
def add_stack_event_handler (stack_event_handlers : List PyHandlerObj)
    (handler : PyHandlerObj) : List PyHandlerObj :=
  stack_event_handlers ++ [handler]

/-! ## Local configuration loading (`handle_local_config`)

The filesystem is abstracted to the state of the configured file; the
factory default document and factory schema live in the absent
`resources` module and are passed in.  A registered config handler
contributes a factory-defaults fragment and a schema fragment. -/

/-- A registered config extension handler (both capabilities present, as
guaranteed by `add_config_handler`). -/
structure ConfigHandler where
  get_factory_defaults : List (String × Value)
  get_config_schema : List (String × Req)

/-- State of the configured file on disk. -/
inductive FileState where
  | absent
  | presentValid (parsed : List (String × Value))
  | presentUnparseable

/-- The failures `handle_local_config` can raise. -/
inductive LoadErr where
  | ioError (msg : String)
  | parseError (filename : String)
  | validationError (e : VErr)
deriving DecidableEq

/-- Observable outcome of `handle_local_config`: what was written to disk
(filename and document), and the validated config or the error raised. -/
structure LocalCfgOutcome where
  written : Option (String × List (String × Value))
  result : Except LoadErr (List (String × Value))

/-- `handle_local_config(config)`: use the override if given; else the
parsed file if present; else — only when missing-file creation is enabled
AND the configured filename is the default one — write the factory
default document merged with the factory defaults of every handler; otherwise
raise `IOError`.  Whatever config was obtained is then validated. -/
def handle_local_config (default_config_filename : String)
    (factory_default_config : List (String × Value))
    (factory_schema : List (String × Req))
    (config_handlers : List ConfigHandler)
    (create_missing_files : Bool) (config_filename : String)
    (file : FileState) (config : Option (List (String × Value))) :
    LocalCfgOutcome :=
  let validated (cfg : List (String × Value))
      (written : Option (String × List (String × Value))) :
      LocalCfgOutcome :=
    match _validate_config cfg factory_schema
        (config_handlers.map ConfigHandler.get_config_schema) with
    | .ok _ => { written := written, result := .ok cfg }
    | .error e => { written := written, result := .error (.validationError e) }
  match config with
  | some cfg => validated cfg none
  | none =>
    match file with
    | .presentValid cfg => validated cfg none
    | .presentUnparseable =>
        { written := none, result := .error (.parseError config_filename) }
    | .absent =>
        if create_missing_files ∧ config_filename = default_config_filename
        then
          let doc := config_handlers.foldl
            (fun acc h => dictUpdate acc h.get_factory_defaults)
            factory_default_config
          validated doc (some (config_filename, doc))
        else
          { written := none
            result := .error (.ioError (config_filename ++
              " could not be found")) }

/-! ## Class-level attribute state (`EnvironmentBase` class body)

Lines 39-52 of the source initialise `config`, `manual_parameter_bindings`,
`stack_outputs`, `config_handlers` and `stack_event_handlers` as mutable
class attributes.  We embed Python attribute semantics: reading `self.x`
falls back from the instance dict to the class dict; `self.x.append(y)`
mutates the heap object the reference denotes and creates no instance
attribute.  Registry elements are abstracted to identities. -/

/-- The class dict of `EnvironmentBase`: each shared mutable default is a
reference into the heap. -/
def ebClassDict : List (String × Nat) :=
  [("config", 0), ("manual_parameter_bindings", 1), ("stack_outputs", 2),
   ("config_handlers", 3), ("stack_event_handlers", 4)]

/-- A Python instance: its own attribute dict (references into the heap). -/
structure PyInstance where
  instanceDict : List (String × Nat)
deriving DecidableEq

/-- A heap of mutable list objects, keyed by reference. -/
structure PyHeap where
  cells : List (Nat × List Nat)
deriving DecidableEq

/-- Python attribute lookup: the instance dict shadows the class dict. -/
def attrRef (self : PyInstance) (attr : String) : Option Nat :=
  match lookupFirst self.instanceDict attr with
  | some r => some r
  | none => lookupFirst ebClassDict attr

/-- Heap cell lookup by reference. -/
def heapGet : List (Nat × List Nat) → Nat → Option (List Nat)
  | [], _ => none
  | (k, v) :: rest, key => if k = key then some v else heapGet rest key

/-- Read the list object an attribute denotes. -/
def readAttrList (heap : PyHeap) (self : PyInstance) (attr : String) :
    Option (List Nat) :=
  (attrRef self attr).bind (fun r => heapGet heap.cells r)

/-- Mutate the list object at a heap reference by appending. -/
def heapAppend (heap : PyHeap) (r : Nat) (x : Nat) : PyHeap :=
  { cells := heap.cells.map
      (fun c => if c.1 = r then (c.1, c.2 ++ [x]) else c) }

/-- `self.stack_event_handlers.append(handler)` under Python attribute
semantics. -/
def append_to_attr (heap : PyHeap) (self : PyInstance) (attr : String)
    (x : Nat) : PyHeap :=
  match attrRef self attr with
  | some r => heapAppend heap r x
  | none => heap

/-! ## Sample values used by concrete witnesses -/

/-- The config of the acceptance scenario in the spec. -/
def demoConfig : List (String × Value) :=
  [("global", .vmap [("environment_name", .vstr "demo"),
                     ("output", .vstr "demo.template"),
                     ("print_debug", .vbool false)])]

/-- A schema requiring `global.environment_name` and `global.output` to be
strings. -/
def demoSchema : List (String × Req) :=
  [("global", .rschema [("environment_name", .rtype .pystr),
                        ("output", .rtype .pystr)])]

/-- A non-stack progress event. -/
def progressEvent : EventData :=
  { status := some "CREATE_IN_PROGRESS", rtype := some "AWS::EC2::VPC",
    name := some "vpc", reason := none }

/-- A terminal event for the stack named `demo`. -/
def terminalEvent : EventData :=
  { status := some "CREATE_COMPLETE",
    rtype := some "AWS::CloudFormation::Stack",
    name := some "demo", reason := none }

/-- A handler satisfied by every event. -/
def satHandler : Handler :=
  { hid := 0, handle_stack_event := fun _ => true }

/-- A handler never satisfied. -/
def idleHandler : Handler :=
  { hid := 1, handle_stack_event := fun _ => false }

/-- A five-cell heap holding the class-level registries, all empty. -/
def emptyClassHeap : PyHeap :=
  { cells := [(0, []), (1, []), (2, []), (3, []), (4, [])] }

/-- A freshly constructed instance with no shadowing attributes. -/
def freshInstance : PyInstance := { instanceDict := [] }

/-! # Theorems -/

/-! ## C1 — update-then-create fallback -/

/-- Claim C1 counterexample: a client error from `update_stack` that is
NOT a stack-not-found condition (here an access-denial) still makes
`_ensure_stack_is_deployed` invoke `create_stack`, contradicting the
claim that a non-not-found client error must not trigger the create
fallback. -/
theorem c1_counterexample :
    (_ensure_stack_is_deployed "demo"
        (.clientError { code := "AccessDenied", msg := "denied" })
        .success).createCalls
      = [{ disableRollback := true, timeoutInMinutes := 60 }] := by
  rfl

/-- Claim C1 (amended): on ANY `ClientError` from the initial
`update_stack` call — the source does not distinguish the stack-not-found
class from other client errors — `create_stack` is invoked exactly once,
with rollback disabled and the bounded 60-minute creation timeout; on a
successful update no create call is made. -/
theorem c1_update_clienterror_always_creates (stack_name : String)
    (e : ClientError) (c : ApiOutcome) :
    (_ensure_stack_is_deployed stack_name (.clientError e) c).createCalls
        = [{ disableRollback := true, timeoutInMinutes := TIMEOUT }]
      ∧ (_ensure_stack_is_deployed stack_name .success c).createCalls
        = [] := by
  refine ⟨?_, rfl⟩
  cases c <;> rfl

/-! ## C7 — a failing fallback create is swallowed, not terminal -/

/-- Claim C7 failing input, evaluated: when the fallback `create_stack`
raises a `ClientError`, `_ensure_stack_is_deployed` prints a
`[Create failed] ... Exiting` notice but raises nothing — the method
returns normally and execution continues, contradicting the claim that
the failure is terminal with a non-zero process exit. -/
theorem c7_create_failure_swallowed :
    ((_ensure_stack_is_deployed "demo"
        (.clientError { code := "ValidationError",
                        msg := "Stack with id demo does not exist" })
        (.clientError { code := "LimitExceeded",
                        msg := "limit exceeded" })).raised = none)
  ∧ ("[Create failed], limit exceeded\nExiting"
      ∈ (_ensure_stack_is_deployed "demo"
          (.clientError { code := "ValidationError",
                          msg := "Stack with id demo does not exist" })
          (.clientError { code := "LimitExceeded",
                          msg := "limit exceeded" })).printed) := by
  exact ⟨rfl, by simp [_ensure_stack_is_deployed]⟩

/-! ## C8 — handler registration capability checks -/

/-- Claim C8 counterexample: an object exposing none of the required
capabilities — in particular no `handle_stack_event` — is appended by
`add_stack_event_handler` without any error: stack-event handler
registration performs no capability check at all. -/
theorem c8_counterexample :
    add_stack_event_handler []
        { className := "Broken", hasCallableGetFactoryDefaults := false,
          hasCallableGetConfigSchema := false,
          hasCallableHandleStackEvent := false }
      = [{ className := "Broken", hasCallableGetFactoryDefaults := false,
           hasCallableGetConfigSchema := false,
           hasCallableHandleStackEvent := false }] := by
  rfl

/-- Claim C8 (amended): `add_config_handler` rejects, with a descriptive
`ValidationError` naming the class and the missing method, any object
lacking a callable `get_factory_defaults` or `get_config_schema`, and
appends it only when both are present; `add_stack_event_handler` appends
unconditionally, with no capability check. -/
theorem c8_registration_checks (hs : List PyHandlerObj)
    (h : PyHandlerObj) :
    (h.hasCallableGetFactoryDefaults = false →
        add_config_handler hs h = .error ("Class " ++ h.className ++
          " cannot be a config handler, missing get_factory_defaults()"))
  ∧ (h.hasCallableGetFactoryDefaults = true →
     h.hasCallableGetConfigSchema = false →
        add_config_handler hs h = .error ("Class " ++ h.className ++
          " cannot be a config handler, missing get_config_schema()"))
  ∧ (h.hasCallableGetFactoryDefaults = true →
     h.hasCallableGetConfigSchema = true →
        add_config_handler hs h = .ok (hs ++ [h]))
  ∧ add_stack_event_handler hs h = hs ++ [h] := by
  refine ⟨fun h1 => ?_, fun h1 h2 => ?_, fun h1 h2 => ?_, rfl⟩
  · simp [add_config_handler, h1]
  · simp [add_config_handler, h1, h2]
  · simp [add_config_handler, h1, h2]

/-- Witness for C8: a config handler lacking `get_factory_defaults` is
rejected with the descriptive error. -/
theorem c8_witness :
    add_config_handler []
        { className := "NoDefaults", hasCallableGetFactoryDefaults := false,
          hasCallableGetConfigSchema := true,
          hasCallableHandleStackEvent := true }
      = .error
          "Class NoDefaults cannot be a config handler, missing get_factory_defaults()" :=
  (c8_registration_checks []
    { className := "NoDefaults", hasCallableGetFactoryDefaults := false,
      hasCallableGetConfigSchema := true,
      hasCallableHandleStackEvent := true }).1 rfl

/-! ## C5 — monitor termination on a terminal event -/

/-- Processing a batch whose last message is terminal clears
`is_stack_running`. -/
theorem processBatch_last_terminal (stack_name : String)
    (hs : List Handler) (running : Bool) (msgs : List EventData)
    (d : EventData) (hterm : terminalCond stack_name d = true) :
    (processBatch stack_name hs running (msgs ++ [d])).2 = false := by
  rw [processBatch, List.foldl_append]
  simp [processEvent, hterm]

/-- Claim C5 counterexample: a fed message sequence ending in a terminal
event for the target stack does NOT always drive the monitor to the
terminated exit — with one handler that is satisfied by the first batch,
the chain empties and the loop exits by chain exhaustion before the
terminal batch is ever polled. -/
theorem c5_counterexample :
    (start_stack_monitor "demo" [(1, [progressEvent]), (2, [terminalEvent])]
        0 true [satHandler]).1
      ≠ ExitReason.terminated := by
  decide

/-- Claim C5 (amended): feeding the monitor a polled batch — received
before the timeout ceiling — whose final message is a terminal event for
the target stack drives the loop to the terminated exit, for every
nonempty handler chain, regardless of how many handlers remain or become
satisfied during the batch; only an empty chain at a poll boundary
prevents this. -/
theorem c5_terminal_batch_terminates (stack_name : String)
    (hs : List Handler) (e : Nat) (msgs : List EventData) (d : EventData)
    (hne : hs ≠ []) (ht : e < poll_timeout)
    (hterm : terminalCond stack_name d = true) :
    (start_stack_monitor stack_name [(e, msgs ++ [d])] 0 true hs).1
      = ExitReason.terminated := by
  have hempty : hs.isEmpty = false := by
    cases hs with
    | nil => exact absurd rfl hne
    | cons a l => rfl
  have hrun := processBatch_last_terminal stack_name hs true msgs d hterm
  rw [start_stack_monitor]
  simp only [poll_timeout, hempty, hrun]
  norm_num
  have ht' : e < 3600 := ht
  rw [start_stack_monitor]
  simp [poll_timeout, ht']

/-- Witness for C5: a single-message batch carrying the terminal event,
with one (never satisfied) handler registered, exits terminated. -/
theorem c5_witness :
    (start_stack_monitor "demo" [(10, [] ++ [terminalEvent])] 0 true
        [idleHandler]).1
      = ExitReason.terminated :=
  c5_terminal_batch_terminates "demo" [idleHandler] 10 [] terminalEvent
    (by simp) (by decide) (by decide)

/-! ## C6 — satisfied handlers see the current event, not the next -/

/-- The handler identities surviving `removeFirst` are a sublist of the
originals. -/
theorem removeFirst_hids_sublist (l : List Handler) (b : Handler) :
    ((removeFirst l b).map Handler.hid).Sublist (l.map Handler.hid) := by
  induction l with
  | nil => simp [removeFirst]
  | cons x xs ih =>
      rw [removeFirst]
      by_cases hx : x.hid = b.hid
      · simp [hx]
      · simp only [if_neg hx, List.map_cons]
        exact (ih.cons₂ x.hid)

/-- With pairwise-distinct handler identities, `removeFirst` leaves no
element carrying the removed identity. -/
theorem hid_not_mem_removeFirst (l : List Handler) (b : Handler)
    (hnd : (l.map Handler.hid).Nodup) :
    b.hid ∉ (removeFirst l b).map Handler.hid := by
  induction l with
  | nil => simp [removeFirst]
  | cons x xs ih =>
      rw [removeFirst]
      rw [List.map_cons] at hnd
      rcases List.nodup_cons.mp hnd with ⟨hx, hxs⟩
      by_cases he : x.hid = b.hid
      · rw [if_pos he]
        rw [← he]
        exact hx
      · rw [if_neg he]
        simp only [List.map_cons, List.mem_cons]
        rintro (h | h)
        · exact he h.symm
        · exact ih hxs h

/-- An identity absent from the chain stays absent through `removeFirst`. -/
theorem not_mem_removeFirst_of_not_mem (l : List Handler) (b : Handler)
    (y : Nat) (hy : y ∉ l.map Handler.hid) :
    y ∉ (removeFirst l b).map Handler.hid :=
  fun hmem => hy ((removeFirst_hids_sublist l b).subset hmem)

/-- Distinct identities are preserved by `removeFirst`. -/
theorem nodup_removeFirst (l : List Handler) (b : Handler)
    (hnd : (l.map Handler.hid).Nodup) :
    ((removeFirst l b).map Handler.hid).Nodup :=
  (removeFirst_hids_sublist l b).nodup hnd

/-- An identity absent from the chain stays absent through a whole
removal round. -/
theorem not_mem_foldl_removeFirst_of_not_mem (toRem : List Handler) :
    ∀ (l : List Handler) (y : Nat), y ∉ l.map Handler.hid →
      y ∉ (toRem.foldl removeFirst l).map Handler.hid := by
  induction toRem with
  | nil => intro l y hy; simpa using hy
  | cons t ts ih =>
      intro l y hy
      exact ih (removeFirst l t) y (not_mem_removeFirst_of_not_mem l t y hy)

/-- Distinct identities are preserved by a whole removal round. -/
theorem nodup_foldl_removeFirst (toRem : List Handler) :
    ∀ (l : List Handler), (l.map Handler.hid).Nodup →
      ((toRem.foldl removeFirst l).map Handler.hid).Nodup := by
  induction toRem with
  | nil => intro l h; simpa using h
  | cons t ts ih => intro l h; exact ih (removeFirst l t) (nodup_removeFirst l t h)

/-- A handler in the to-remove set is gone after the removal round. -/
theorem mem_toRemove_not_mem_foldl (toRem : List Handler) :
    ∀ (l : List Handler) (h : Handler), (l.map Handler.hid).Nodup →
      h ∈ toRem → h.hid ∉ (toRem.foldl removeFirst l).map Handler.hid := by
  induction toRem with
  | nil => intro l h _ hmem; cases hmem
  | cons t ts ih =>
      intro l h hnd hmem
      rcases List.mem_cons.mp hmem with he | hts
      · subst he
        exact not_mem_foldl_removeFirst_of_not_mem ts (removeFirst l h) h.hid
          (hid_not_mem_removeFirst l h hnd)
      · exact ih (removeFirst l t) h (nodup_removeFirst l t hnd) hts

/-- An identity absent from the chain is dispatched no later event. -/
theorem not_mem_processBatch_of_not_mem (stack_name : String)
    (ds : List EventData) :
    ∀ (hs : List Handler) (running : Bool) (y : Nat),
      y ∉ hs.map Handler.hid →
      y ∉ (processBatch stack_name hs running ds).1.map Handler.hid := by
  induction ds with
  | nil => intro hs running y hy; simpa [processBatch] using hy
  | cons d ds ih =>
      intro hs running y hy
      have hstep : y ∉ (processEvent stack_name hs running d).1.map Handler.hid := by
        rw [processEvent]
        exact not_mem_foldl_removeFirst_of_not_mem _ hs y hy
      have : processBatch stack_name hs running (d :: ds)
          = processBatch stack_name (processEvent stack_name hs running d).1
              (processEvent stack_name hs running d).2 ds := by
        simp [processBatch, processEvent]
      rw [this]
      exact ih _ _ y hstep

/-- Claim C6: with pairwise-distinct handler identities, a handler whose
`handle_stack_event` reports satisfied on event N is still part of the
dispatch round for event N, is absent from the chain left after that
round, and is therefore dispatched no later event. -/
theorem c6_satisfied_handler_dispatch (stack_name : String)
    (handlers : List Handler) (running : Bool) (d : EventData) (h : Handler)
    (hnd : (handlers.map Handler.hid).Nodup)
    (hmem : h ∈ handlers)
    (hsat : h.handle_stack_event d = true) :
    h.hid ∈ dispatchRound handlers
  ∧ h.hid ∉ (processEvent stack_name handlers running d).1.map Handler.hid
  ∧ ∀ ds : List EventData,
      h.hid ∉ (processBatch stack_name
          (processEvent stack_name handlers running d).1
          (processEvent stack_name handlers running d).2 ds).1.map Handler.hid := by
  have hfil : h ∈ handlers.filter (fun x => x.handle_stack_event d) :=
    List.mem_filter.mpr ⟨hmem, hsat⟩
  have hout : h.hid ∉ (processEvent stack_name handlers running d).1.map Handler.hid := by
    rw [processEvent]
    exact mem_toRemove_not_mem_foldl _ handlers h hnd hfil
  refine ⟨List.mem_map_of_mem Handler.hid hmem, hout, fun ds => ?_⟩
  exact not_mem_processBatch_of_not_mem stack_name ds _ _ h.hid hout

/-- Witness for C6: a concrete two-handler chain with distinct
identities; the always-satisfied handler (identity 0) is absent from the
chain after the round that satisfied it. -/
theorem c6_witness :
    (0 : Nat) ∉ (processEvent "demo" [satHandler, idleHandler] true
        progressEvent).1.map Handler.hid :=
  (c6_satisfied_handler_dispatch "demo" [satHandler, idleHandler] true
    progressEvent satHandler (by simp [satHandler, idleHandler])
    (List.mem_cons_self satHandler [idleHandler]) rfl).2.1

/-! ## C10 — class-level registries are shared across instances -/

/-- Appending into one heap cell changes exactly that cell. -/
theorem heapGet_append_cells (cells : List (Nat × List Nat))
    (r r' x : Nat) :
    heapGet (cells.map (fun c => if c.1 = r then (c.1, c.2 ++ [x]) else c)) r'
      = if r' = r then (heapGet cells r').map (fun l => l ++ [x])
        else heapGet cells r' := by
  induction cells with
  | nil => by_cases h : r' = r <;> simp [heapGet, h]
  | cons c cs ih =>
      obtain ⟨k, v⟩ := c
      simp only [List.map_cons]
      by_cases hk : k = r
      · subst hk
        rw [if_pos rfl]
        by_cases hk' : k = r'
        · subst hk'
          simp [heapGet]
        · have hk2 : ¬ r' = k := fun h => hk' h.symm
          simp [heapGet, hk', hk2, ih]
      · rw [if_neg hk]
        by_cases hk' : k = r'
        · subst hk'
          have hk2 : ¬ k = r := hk
          simp [heapGet, hk2]
        · simp [heapGet, hk', ih]

/-- Claim C10: the handler registries are class-level mutable defaults —
under Python attribute semantics, for any two instances with no shadowing
instance attribute (as the constructor leaves them), a handler appended
through instance A (via `add_stack_event_handler` or the success path of
`add_config_handler`) is visible when the registry is read through
instance B, and hence through every instance constructed afterwards. -/
theorem c10_shared_class_registries (heap : PyHeap) (A B : PyInstance)
    (x : Nat)
    (hA : lookupFirst A.instanceDict "stack_event_handlers" = none)
    (hB : lookupFirst B.instanceDict "stack_event_handlers" = none)
    (hA2 : lookupFirst A.instanceDict "config_handlers" = none)
    (hB2 : lookupFirst B.instanceDict "config_handlers" = none) :
    readAttrList (append_to_attr heap A "stack_event_handlers" x) B
        "stack_event_handlers"
      = (readAttrList heap B "stack_event_handlers").map (fun l => l ++ [x])
  ∧ readAttrList (append_to_attr heap A "config_handlers" x) B
        "config_handlers"
      = (readAttrList heap B "config_handlers").map (fun l => l ++ [x]) := by
  have hcls1 : lookupFirst ebClassDict "stack_event_handlers" = some 4 := rfl
  have hcls2 : lookupFirst ebClassDict "config_handlers" = some 3 := rfl
  have hArf : attrRef A "stack_event_handlers" = some 4 := by
    rw [attrRef, hA, hcls1]
  have hBrf : attrRef B "stack_event_handlers" = some 4 := by
    rw [attrRef, hB, hcls1]
  have hArf2 : attrRef A "config_handlers" = some 3 := by
    rw [attrRef, hA2, hcls2]
  have hBrf2 : attrRef B "config_handlers" = some 3 := by
    rw [attrRef, hB2, hcls2]
  constructor
  · rw [append_to_attr, hArf]
    simp only [readAttrList, hBrf, Option.some_bind, heapAppend]
    rw [heapGet_append_cells, if_pos rfl]
  · rw [append_to_attr, hArf2]
    simp only [readAttrList, hBrf2, Option.some_bind, heapAppend]
    rw [heapGet_append_cells, if_pos rfl]

/-- Witness for C10: on the concrete empty class heap, a handler appended
through one fresh instance is read back through another. -/
theorem c10_witness :
    readAttrList (append_to_attr emptyClassHeap freshInstance
        "stack_event_handlers" 7) freshInstance "stack_event_handlers"
      = some [7] :=
  ((c10_shared_class_registries emptyClassHeap freshInstance freshInstance 7
      rfl rfl rfl rfl).1).trans rfl

/-! ## C9 — missing config file handling -/

/-- Claim C9 counterexample: with missing-file creation ENABLED but a
non-default configured filename, an absent file makes
`handle_local_config` raise `IOError` and write nothing — the
factory-default write path is restricted to the default filename,
contradicting the claim that it applies to every configured filename. -/
theorem c9_counterexample :
    (handle_local_config "config.json" [] [] [] true "custom.json"
        .absent none).written = none
  ∧ (handle_local_config "config.json" [] [] [] true "custom.json"
        .absent none).result
      = .error (.ioError "custom.json could not be found") := by
  exact ⟨rfl, rfl⟩

/-- Claim C9 (amended): with no override and the configured file absent,
if creation-of-missing-files is enabled AND the configured filename is
the default one, the factory-default document augmented by every
factory defaults of every registered handler is written to that filename and
then validated; otherwise — creation disabled OR any non-default
filename — an `IOError` naming the file is raised and nothing is
written. -/
theorem c9_missing_file_behavior (dflt : String)
    (factoryCfg : List (String × Value)) (schema : List (String × Req))
    (handlers : List ConfigHandler) (create : Bool) (fname : String) :
    (create = true → fname = dflt →
      (handle_local_config dflt factoryCfg schema handlers create fname
          .absent none).written
        = some (fname, handlers.foldl
            (fun acc h => dictUpdate acc h.get_factory_defaults) factoryCfg)
      ∧ ((handle_local_config dflt factoryCfg schema handlers create fname
            .absent none).result
          = .ok (handlers.foldl
              (fun acc h => dictUpdate acc h.get_factory_defaults) factoryCfg)
        ∨ ∃ e, (handle_local_config dflt factoryCfg schema handlers create
            fname .absent none).result = .error (.validationError e)))
  ∧ ((create = false ∨ fname ≠ dflt) →
      (handle_local_config dflt factoryCfg schema handlers create fname
          .absent none).written = none
      ∧ (handle_local_config dflt factoryCfg schema handlers create fname
          .absent none).result
        = .error (.ioError (fname ++ " could not be found"))) := by
  constructor
  · intro hc hf
    subst hc; subst hf
    cases hv : _validate_config
        (handlers.foldl (fun acc h => dictUpdate acc h.get_factory_defaults)
          factoryCfg) schema (handlers.map ConfigHandler.get_config_schema) with
    | ok u =>
        refine ⟨by simp [handle_local_config, hv], Or.inl ?_⟩
        simp [handle_local_config, hv]
    | error e =>
        refine ⟨by simp [handle_local_config, hv], Or.inr ⟨e, ?_⟩⟩
        simp [handle_local_config, hv]
  · intro hor
    have hcond : ¬ (create = true ∧ fname = dflt) := by
      rcases hor with h | h
      · intro hand; rw [hand.1] at h; cases h
      · intro hand; exact h hand.2
    exact ⟨by simp [handle_local_config, hcond],
           by simp [handle_local_config, hcond]⟩

/-- Witness for C9: creation disabled, default filename, absent file —
the load fails with the `IOError` naming the file. -/
theorem c9_witness :
    (handle_local_config "config.json" [] [] [] false "config.json"
        .absent none).written = none
  ∧ (handle_local_config "config.json" [] [] [] false "config.json"
        .absent none).result
      = .error (.ioError "config.json could not be found") :=
  (c9_missing_file_behavior "config.json" [] [] [] false "config.json").2
    (Or.inl rfl)

/-! ## C3/C4 — parameter binding resolution -/

/-- Lookup distributes over association-list append. -/
theorem lookupFirst_append {β : Type} (l l2 : List (String × β))
    (k : String) :
    lookupFirst (l ++ l2) k
      = match lookupFirst l k with
        | some v => some v
        | none => lookupFirst l2 k := by
  induction l with
  | nil => simp [lookupFirst]
  | cons kv rest ih =>
      obtain ⟨k', v'⟩ := kv
      by_cases h : k' = k
      · simp [lookupFirst, h]
      · simp [lookupFirst, h, ih]

/-- A successful lookup survives appending on the right. -/
theorem lookupFirst_append_isSome_left {β : Type}
    (l l2 : List (String × β)) (k : String)
    (h : (lookupFirst l k).isSome = true) :
    (lookupFirst (l ++ l2) k).isSome = true := by
  rw [lookupFirst_append]
  cases hl : lookupFirst l k with
  | none => rw [hl] at h; cases h
  | some v => simp

/-- Appending a binding for `k` makes `k` found. -/
theorem lookupFirst_append_self {β : Type} (l : List (String × β))
    (k : String) (v : β) :
    (lookupFirst (l ++ [(k, v)]) k).isSome = true := by
  rw [lookupFirst_append]
  cases hl : lookupFirst l k with
  | none => simp [lookupFirst]
  | some w => simp

/-- Containment survives appending on the right. -/
theorem contains_append_left (l l2 : List String) (p : String)
    (h : l.contains p = true) : (l ++ l2).contains p = true := by
  have hm : p ∈ l := by simpa using h
  simp
  exact Or.inl hm

/-- An appended element is contained. -/
theorem contains_append_self (l : List String) (p : String) :
    (l ++ [p]).contains p = true := by
  simp

/-- `resolveStep` unfolded. -/
theorem resolveStep_eq (manual : List (String × CfnValue))
    (st : ParentState) (acc : List (String × CfnValue))
    (pd : String × ParamDecl) :
    resolveStep manual (st, acc) pd
      = ((resolveChildParam manual st pd.1 pd.2).2,
         acc ++ [(pd.1, (resolveChildParam manual st pd.1 pd.2).1)]) := rfl

/-- One resolution step never touches resources or the registry, and
either leaves the parameter dict alone or appends exactly the processed
declaration (the pass-through rule). -/
theorem resolveChildParam_state (manual : List (String × CfnValue))
    (st : ParentState) (p : String) (decl : ParamDecl) :
    (resolveChildParam manual st p decl).2.resources = st.resources
  ∧ (resolveChildParam manual st p decl).2.stack_outputs = st.stack_outputs
  ∧ ((resolveChildParam manual st p decl).2.parameters = st.parameters
     ∨ (resolveChildParam manual st p decl).2.parameters
         = st.parameters ++ [(p, decl)]) := by
  rw [resolveChildParam]
  cases hm : lookupFirst manual p with
  | some v => exact ⟨rfl, rfl, Or.inl rfl⟩
  | none =>
      dsimp only
      split_ifs with h1 h2 h3
      · exact ⟨rfl, rfl, Or.inl rfl⟩
      · exact ⟨rfl, rfl, Or.inl rfl⟩
      · exact ⟨rfl, rfl, Or.inl rfl⟩
      · cases hso : lookupFirst st.stack_outputs p with
        | some outs => exact ⟨rfl, rfl, Or.inl rfl⟩
        | none => exact ⟨rfl, rfl, Or.inr rfl⟩

/-- When one of the five non-mutating rules applies, resolution leaves
the parent state untouched. -/
theorem resolveChildParam_guard_unchanged (manual : List (String × CfnValue))
    (st : ParentState) (p : String) (decl : ParamDecl)
    (hg : ruleGuard manual st p) :
    (resolveChildParam manual st p decl).2 = st := by
  rw [resolveChildParam]
  cases hm : lookupFirst manual p with
  | some v => rfl
  | none =>
      dsimp only
      split_ifs with h1 h2 h3
      · rfl
      · rfl
      · rfl
      · cases hso : lookupFirst st.stack_outputs p with
        | some outs => rfl
        | none =>
            rcases hg with h | h | h | h | h
            · rw [hm] at h; cases h
            · exact absurd h h1
            · exact absurd h h2
            · exact absurd h h3
            · rw [hso] at h; cases h

/-- After resolving `p`, the parent state covers `p` by one of the five
non-mutating rules (in the pass-through case because `p` was just
declared on the parent). -/
theorem ruleGuard_after_resolve (manual : List (String × CfnValue))
    (st : ParentState) (p : String) (decl : ParamDecl) :
    ruleGuard manual ((resolveChildParam manual st p decl).2) p := by
  rw [resolveChildParam]
  cases hm : lookupFirst manual p with
  | some v => exact Or.inl (by rw [hm]; rfl)
  | none =>
      dsimp only
      split_ifs with h1 h2 h3
      · exact Or.inr (Or.inl h1)
      · exact Or.inr (Or.inr (Or.inl h2))
      · exact Or.inr (Or.inr (Or.inr (Or.inl h3)))
      · cases hso : lookupFirst st.stack_outputs p with
        | some outs =>
            exact Or.inr (Or.inr (Or.inr (Or.inr (by rw [hso]; rfl))))
        | none =>
            exact Or.inr (Or.inr (Or.inl (lookupFirst_append_self
              st.parameters p decl)))

/-- The binding loop never touches resources or the registry. -/
theorem foldl_resolveStep_res_so (manual : List (String × CfnValue))
    (ps : List (String × ParamDecl)) :
    ∀ (st : ParentState) (acc : List (String × CfnValue)),
      (ps.foldl (resolveStep manual) (st, acc)).1.resources = st.resources
    ∧ (ps.foldl (resolveStep manual) (st, acc)).1.stack_outputs
        = st.stack_outputs := by
  induction ps with
  | nil => intro st acc; exact ⟨rfl, rfl⟩
  | cons pd rest ih =>
      intro st acc
      rw [List.foldl_cons, resolveStep_eq]
      have hstep := resolveChildParam_state manual st pd.1 pd.2
      have hrec := ih (resolveChildParam manual st pd.1 pd.2).2
        (acc ++ [(pd.1, (resolveChildParam manual st pd.1 pd.2).1)])
      exact ⟨hrec.1.trans hstep.1, hrec.2.trans hstep.2.1⟩

/-- The binding loop only appends parent parameters. -/
theorem foldl_resolveStep_params_extend (manual : List (String × CfnValue))
    (ps : List (String × ParamDecl)) :
    ∀ (st : ParentState) (acc : List (String × CfnValue)),
      ∃ ext, (ps.foldl (resolveStep manual) (st, acc)).1.parameters
        = st.parameters ++ ext := by
  induction ps with
  | nil => intro st acc; exact ⟨[], by simp⟩
  | cons pd rest ih =>
      intro st acc
      rw [List.foldl_cons, resolveStep_eq]
      obtain ⟨ext2, h2⟩ := ih (resolveChildParam manual st pd.1 pd.2).2
        (acc ++ [(pd.1, (resolveChildParam manual st pd.1 pd.2).1)])
      rcases (resolveChildParam_state manual st pd.1 pd.2).2.2 with hp | hp
      · exact ⟨ext2, by rw [h2, hp]⟩
      · exact ⟨[(pd.1, pd.2)] ++ ext2, by rw [h2, hp]; simp⟩

/-- The rule guard is monotone under appending parameters and resources
and preserving the registry. -/
theorem ruleGuard_mono (manual : List (String × CfnValue))
    (st st2 : ParentState) (p : String)
    (hparams : ∃ ext, st2.parameters = st.parameters ++ ext)
    (hres : ∃ ext, st2.resources = st.resources ++ ext)
    (hso : st2.stack_outputs = st.stack_outputs)
    (hg : ruleGuard manual st p) : ruleGuard manual st2 p := by
  obtain ⟨e1, h1⟩ := hparams
  obtain ⟨e2, h2⟩ := hres
  rcases hg with h | h | h | h | h
  · exact Or.inl h
  · exact Or.inr (Or.inl h)
  · exact Or.inr (Or.inr (Or.inl
      (by rw [h1]; exact lookupFirst_append_isSome_left _ _ _ h)))
  · exact Or.inr (Or.inr (Or.inr (Or.inl
      (by rw [h2]; exact contains_append_left _ _ _ h))))
  · exact Or.inr (Or.inr (Or.inr (Or.inr (by rw [hso]; exact h))))

/-- After the binding loop, every processed child parameter name is
covered by a non-mutating rule against the final state. -/
theorem ruleGuard_after_run (manual : List (String × CfnValue))
    (ps : List (String × ParamDecl)) :
    ∀ (st : ParentState) (acc : List (String × CfnValue)) (p : String)
      (d : ParamDecl), (p, d) ∈ ps →
      ruleGuard manual ((ps.foldl (resolveStep manual) (st, acc)).1) p := by
  induction ps with
  | nil => intro st acc p d h; cases h
  | cons pd rest ih =>
      intro st acc p d hmem
      rw [List.foldl_cons, resolveStep_eq]
      rcases List.mem_cons.mp hmem with he | hrest
      · have he1 : pd.1 = p := by rw [← he]
        have he2 : pd.2 = d := by rw [← he]
        rw [he1, he2]
        refine ruleGuard_mono manual
          ((resolveChildParam manual st p d).2) _ p
          (foldl_resolveStep_params_extend manual rest _ _)
          ⟨[], by rw [(foldl_resolveStep_res_so manual rest _ _).1]; simp⟩
          (foldl_resolveStep_res_so manual rest _ _).2
          (ruleGuard_after_resolve manual st p d)
      · exact ih _ _ p d hrest

/-- A binding loop whose every parameter is already covered by a
non-mutating rule leaves the parent state unchanged. -/
theorem run_unchanged_of_guard (manual : List (String × CfnValue))
    (ps : List (String × ParamDecl)) :
    ∀ (st : ParentState) (acc : List (String × CfnValue)),
      (∀ p d, (p, d) ∈ ps → ruleGuard manual st p) →
      (ps.foldl (resolveStep manual) (st, acc)).1 = st := by
  induction ps with
  | nil => intro st acc _; rfl
  | cons pd rest ih =>
      intro st acc hg
      rw [List.foldl_cons, resolveStep_eq]
      have h1 : (resolveChildParam manual st pd.1 pd.2).2 = st :=
        resolveChildParam_guard_unchanged manual st pd.1 pd.2
          (hg pd.1 pd.2 (List.mem_cons_self _ _))
      rw [h1]
      exact ih st _ (fun p d h => hg p d (List.mem_cons_of_mem _ h))

/-- `soInsert` records the name. -/
theorem soInsert_isSome (st : ParentState) (n : String) :
    (lookupFirst (soInsert st n).stack_outputs n).isSome = true := by
  rw [soInsert]
  by_cases h : (lookupFirst st.stack_outputs n).isSome = true
  · rw [if_pos h]; exact h
  · rw [if_neg h]
    exact lookupFirst_append_self st.stack_outputs n []

/-- `soInsert` is the identity once the name is recorded. -/
theorem soInsert_of_isSome (st : ParentState) (n : String)
    (h : (lookupFirst st.stack_outputs n).isSome = true) :
    soInsert st n = st := by
  rw [soInsert, if_pos h]

/-- `resInsert` records the name. -/
theorem resInsert_contains (st : ParentState) (r : String) :
    (resInsert st r).resources.contains r = true := by
  rw [resInsert]
  by_cases h : st.resources.contains r = true
  · rw [if_pos h]; exact h
  · rw [if_neg h]
    exact contains_append_self st.resources r

/-- `resInsert` is the identity once the name is present. -/
theorem resInsert_of_contains (st : ParentState) (r : String)
    (h : st.resources.contains r = true) : resInsert st r = st := by
  rw [resInsert, if_pos h]

/-- `resInsert` only appends resources. -/
theorem resInsert_resources_extend (st : ParentState) (r : String) :
    ∃ ext, (resInsert st r).resources = st.resources ++ ext := by
  rw [resInsert]
  by_cases h : st.resources.contains r = true
  · exact ⟨[], by rw [if_pos h]; simp⟩
  · exact ⟨[r], by rw [if_neg h]⟩

/-- Claim C3: attaching the same child template twice leaves the parent
parameter count unchanged — in fact the entire parent state: every child
parameter that passed through in the first attachment is found as a
parent parameter (rule 3) in the second, so no declaration is repeated. -/
theorem c3_pass_through_idempotent (st : ParentState)
    (manual : List (String × CfnValue)) (child : ChildTemplate) :
    ((add_child_template (add_child_template st manual child).1 manual
        child).1).parameters.length
      = ((add_child_template st manual child).1).parameters.length := by
  have key : (add_child_template (add_child_template st manual child).1
      manual child).1 = (add_child_template st manual child).1 := by
    have hst1 : (add_child_template st manual child).1
        = resInsert (resolveAllParams manual child.parameters
            (soInsert st child.name)).1 (child.name ++ "Stack") := rfl
    have hmid := foldl_resolveStep_res_so manual child.parameters
      (soInsert st child.name) []
    have hso1 : (lookupFirst ((add_child_template st manual child).1).stack_outputs
        child.name).isSome = true := by
      rw [hst1]
      show (lookupFirst (resolveAllParams manual child.parameters
          (soInsert st child.name)).1.stack_outputs child.name).isSome = true
      rw [resolveAllParams, hmid.2]
      exact soInsert_isSome st child.name
    have hguard : ∀ p d, (p, d) ∈ child.parameters →
        ruleGuard manual ((add_child_template st manual child).1) p := by
      intro p d hmem
      rw [hst1]
      refine ruleGuard_mono manual
        ((resolveAllParams manual child.parameters (soInsert st child.name)).1)
        _ p ⟨[], by simp [resInsert]⟩
        (resInsert_resources_extend _ _) (by rw [resInsert]) ?_
      exact ruleGuard_after_run manual child.parameters
        (soInsert st child.name) [] p d hmem
    have hres1 : ((add_child_template st manual child).1).resources.contains
        (child.name ++ "Stack") = true := by
      rw [hst1]; exact resInsert_contains _ _
    show resInsert (resolveAllParams manual child.parameters
        (soInsert (add_child_template st manual child).1 child.name)).1
        (child.name ++ "Stack") = (add_child_template st manual child).1
    rw [soInsert_of_isSome _ _ hso1]
    rw [show (resolveAllParams manual child.parameters
        (add_child_template st manual child).1).1
        = (add_child_template st manual child).1 from
      run_unchanged_of_guard manual child.parameters
        ((add_child_template st manual child).1) [] hguard]
    exact resInsert_of_contains _ _ hres1
  rw [key]

/-- Every binding the loop emits for a manually bound name is the manual
value (rule 1 consults only the global manual map, never the evolving
parent state). -/
theorem foldl_resolveStep_manual_unique (manual : List (String × CfnValue))
    (p : String) (v : CfnValue) (hm : lookupFirst manual p = some v)
    (ps : List (String × ParamDecl)) :
    ∀ (st : ParentState) (acc : List (String × CfnValue)),
      (∀ w, (p, w) ∈ acc → w = v) →
      ∀ w, (p, w) ∈ (ps.foldl (resolveStep manual) (st, acc)).2 → w = v := by
  induction ps with
  | nil => intro st acc hacc w hw; exact hacc w hw
  | cons pd rest ih =>
      intro st acc hacc w hw
      rw [List.foldl_cons, resolveStep_eq] at hw
      refine ih _ _ ?_ w hw
      intro w' hw'
      rcases List.mem_append.mp hw' with h | h
      · exact hacc w' h
      · have hpair := List.mem_singleton.mp h
        have hp1 : pd.1 = p := (congrArg Prod.fst hpair).symm
        have : (resolveChildParam manual st pd.1 pd.2).1 = v := by
          rw [hp1, resolveChildParam, hm]
        rw [← this]
        exact (congrArg Prod.snd hpair)

/-- The binding loop preserves already-emitted bindings. -/
theorem foldl_resolveStep_bindings_mono (manual : List (String × CfnValue))
    (ps : List (String × ParamDecl)) :
    ∀ (st : ParentState) (acc : List (String × CfnValue))
      (x : String × CfnValue), x ∈ acc →
      x ∈ (ps.foldl (resolveStep manual) (st, acc)).2 := by
  induction ps with
  | nil => intro st acc x h; exact h
  | cons pd rest ih =>
      intro st acc x h
      rw [List.foldl_cons, resolveStep_eq]
      exact ih _ _ x (List.mem_append_left _ h)

/-- A manually bound declared parameter gets its binding emitted. -/
theorem foldl_resolveStep_manual_mem (manual : List (String × CfnValue))
    (p : String) (v : CfnValue) (d : ParamDecl)
    (hm : lookupFirst manual p = some v)
    (ps : List (String × ParamDecl)) :
    ∀ (st : ParentState) (acc : List (String × CfnValue)),
      (p, d) ∈ ps →
      (p, v) ∈ (ps.foldl (resolveStep manual) (st, acc)).2 := by
  induction ps with
  | nil => intro st acc h; cases h
  | cons pd rest ih =>
      intro st acc hmem
      rw [List.foldl_cons, resolveStep_eq]
      rcases List.mem_cons.mp hmem with he | hrest
      · have hp1 : pd.1 = p := by rw [← he]
        have hbind : (resolveChildParam manual st pd.1 pd.2).1 = v := by
          rw [hp1, resolveChildParam, hm]
        refine foldl_resolveStep_bindings_mono manual rest _ _ (p, v) ?_
        rw [hp1] at hbind ⊢
        rw [hbind]
        exact List.mem_append_right _ (List.mem_singleton_self _)
      · exact ih _ _ hrest

/-- Claim C4: when a child parameter name has both a manual binding and a
parent parameter of identical name, `add_child_template` binds the child
parameter to the manual value — rule 1 beats rule 3: the emitted binding
map pairs the name with the manual value and with nothing else. -/
theorem c4_manual_binding_wins (st : ParentState)
    (manual : List (String × CfnValue)) (child : ChildTemplate)
    (p : String) (d : ParamDecl) (v : CfnValue)
    (h1 : lookupFirst manual p = some v)
    (_h2 : (lookupFirst st.parameters p).isSome = true)
    (h3 : (p, d) ∈ child.parameters) :
    (p, v) ∈ (add_child_template st manual child).2
  ∧ ∀ w, (p, w) ∈ (add_child_template st manual child).2 → w = v := by
  constructor
  · exact foldl_resolveStep_manual_mem manual p v d h1 child.parameters
      (soInsert st child.name) [] h3
  · intro w hw
    exact foldl_resolveStep_manual_unique manual p v h1 child.parameters
      (soInsert st child.name) [] (fun w' h => absurd h (by simp)) w hw

/-- Witness for C4: a concrete child declaring `vpcId`, with a manual
binding for `vpcId` and a parent parameter of the same name: the emitted
binding is the manual value. -/
theorem c4_witness :
    (("vpcId", CfnValue.lit "vpc-123") ∈
      (add_child_template
        { parameters := [("vpcId", { payload := "parent-vpcId" })],
          resources := [], stack_outputs := [] }
        [("vpcId", CfnValue.lit "vpc-123")]
        { name := "net",
          parameters := [("vpcId", { payload := "child-vpcId" })] }).2) :=
  (c4_manual_binding_wins
    { parameters := [("vpcId", { payload := "parent-vpcId" })],
      resources := [], stack_outputs := [] }
    [("vpcId", CfnValue.lit "vpc-123")]
    { name := "net", parameters := [("vpcId", { payload := "child-vpcId" })] }
    "vpcId" { payload := "child-vpcId" } (CfnValue.lit "vpc-123")
    rfl rfl (List.mem_singleton_self _)).1

/-! ## C2 — the validator validates exactly the condition of the spec -/

/-- `joinPath path key` lies under `path`. -/
theorem pathUnder_joinPath (path key : String) :
    pathUnder path (joinPath path key) := by
  rw [joinPath]
  by_cases h : path = ""
  · rw [if_pos h]
    exact ⟨key, by rw [h]; rfl, Or.inl h⟩
  · rw [if_neg h]
    exact ⟨"." ++ key, by rw [String.append_assoc], Or.inr (Or.inr ⟨key, rfl⟩)⟩

/-- `pathUnder` is transitive. -/
theorem pathUnder_trans (p q r : String) (h1 : pathUnder p q)
    (h2 : pathUnder q r) : pathUnder p r := by
  obtain ⟨s1, hq, hc1⟩ := h1
  obtain ⟨s2, hr, hc2⟩ := h2
  refine ⟨s1 ++ s2, by rw [hr, hq, String.append_assoc], ?_⟩
  rcases hc1 with h | h | ⟨t, ht⟩
  · exact Or.inl h
  · subst h
    rcases hc2 with h2' | h2' | ⟨t, ht⟩
    · refine Or.inl ?_
      rw [hq, String.append_empty] at h2'
      exact h2'
    · exact Or.inr (Or.inl (by rw [h2']; rfl))
    · exact Or.inr (Or.inr ⟨t, by rw [ht]; rfl⟩)
  · exact Or.inr (Or.inr ⟨t ++ s2, by rw [ht, String.append_assoc]⟩)

mutual

/-- `_validate_config_helper` succeeds exactly when every schema pattern
matches at least one config key and every matched value agrees, at every
nesting level (the validity condition of the spec). -/
theorem validate_helper_ok_iff (schema : List (String × Req))
    (config : List (String × Value)) (path : String) :
    _validate_config_helper schema config path = Except.ok ()
      ↔ specValid schema config = true := by
  match schema with
  | [] => simp [_validate_config_helper, specValid]
  | (pat, req) :: rest =>
      rw [_validate_config_helper, specValid]
      by_cases hemp : (matchingEntries config pat).isEmpty
      · simp [hemp]
      · rw [if_neg hemp]
        have h1 := validate_matches_ok_iff req (matchingEntries config pat)
          path
        have h2 := validate_helper_ok_iff rest config path
        cases hv : validateMatches req (matchingEntries config pat) path with
        | error e =>
            have hnot : ¬ specAllAgree req (matchingEntries config pat)
                = true := by
              intro hs
              have hok := h1.mpr hs
              rw [hv] at hok
              cases hok
            simp [hemp, hnot]
        | ok u =>
            have hs : specAllAgree req (matchingEntries config pat) = true :=
              h1.mp (by rw [hv])
            simp [hemp, hs, h2]
termination_by (sizeOf schema, 0)

/-- The per-match loop succeeds exactly when every matched value agrees
with the requirement. -/
theorem validate_matches_ok_iff (req : Req) (ms : List (String × Value))
    (path : String) :
    validateMatches req ms path = Except.ok ()
      ↔ specAllAgree req ms = true := by
  match req, ms with
  | req, [] => simp [validateMatches, specAllAgree]
  | .rtype t, (k, v) :: rest =>
      rw [validateMatches, specAllAgree, specAgrees]
      by_cases htm : typeMatches t v = true
      · rw [if_pos htm]
        have hr := validate_matches_ok_iff (.rtype t) rest path
        simp [htm, hr]
      · rw [if_neg htm]
        simp [htm]
  | .rschema sub, (k, v) :: rest =>
      cases v with
      | vmap m =>
          have hh := validate_helper_ok_iff sub m (joinPath path k)
          have hr := validate_matches_ok_iff (.rschema sub) rest path
          cases hv : _validate_config_helper sub m (joinPath path k) with
          | error e =>
              have hnot : ¬ specValid sub m = true := by
                intro hs
                have hok := hh.mpr hs
                rw [hv] at hok
                cases hok
              simp [validateMatches, specAllAgree, specAgrees, hv, hnot]
          | ok u =>
              have hs : specValid sub m = true := hh.mp (by rw [hv])
              simp [validateMatches, specAllAgree, specAgrees, hv, hs, hr]
      | vstr s => simp [validateMatches, specAllAgree, specAgrees]
      | vint n => simp [validateMatches, specAllAgree, specAgrees]
      | vbool b => simp [validateMatches, specAllAgree, specAgrees]
      | vnull => simp [validateMatches, specAllAgree, specAgrees]
      | vlist elems => simp [validateMatches, specAllAgree, specAgrees]
termination_by (sizeOf req, ms.length + 1)

end

mutual

/-- Every error `_validate_config_helper` raises carries a dotted path at
or below the path it was entered with. -/
theorem validate_helper_error_path (schema : List (String × Req))
    (config : List (String × Value)) (path : String) (e : VErr)
    (h : _validate_config_helper schema config path = Except.error e) :
    pathUnder path e.path := by
  match schema with
  | [] => rw [_validate_config_helper] at h; cases h
  | (pat, req) :: rest =>
      rw [_validate_config_helper] at h
      by_cases hemp : (matchingEntries config pat).isEmpty
      · rw [if_pos hemp] at h
        have he : e = VErr.missingSection (joinPath path pat) := by
          cases h; rfl
        rw [he]
        exact pathUnder_joinPath path pat
      · rw [if_neg hemp] at h
        cases hv : validateMatches req (matchingEntries config pat) path with
        | error e2 =>
            rw [hv] at h
            have he : e = e2 := by cases h; rfl
            rw [he]
            exact validate_matches_error_path req
              (matchingEntries config pat) path e2 hv
        | ok u =>
            rw [hv] at h
            exact validate_helper_error_path rest config path e h
termination_by (sizeOf schema, 0)

/-- Every error the per-match loop raises carries a dotted path at or
below the path it was entered with. -/
theorem validate_matches_error_path (req : Req)
    (ms : List (String × Value)) (path : String) (e : VErr)
    (h : validateMatches req ms path = Except.error e) :
    pathUnder path e.path := by
  match req, ms with
  | req, [] => rw [validateMatches] at h; cases h
  | .rtype t, (k, v) :: rest =>
      rw [validateMatches] at h
      by_cases htm : typeMatches t v = true
      · rw [if_pos htm] at h
        exact validate_matches_error_path (.rtype t) rest path e h
      · rw [if_neg htm] at h
        have he : e = VErr.typeMismatch (joinPath path k) (typeLabel t)
            (typeName v) := by cases h; rfl
        rw [he]
        exact pathUnder_joinPath path k
  | .rschema sub, (k, v) :: rest =>
      cases v with
      | vmap m =>
          simp only [validateMatches] at h
          cases hv : _validate_config_helper sub m (joinPath path k) with
          | error e2 =>
              rw [hv] at h
              have he : e = e2 := by cases h; rfl
              rw [he]
              exact pathUnder_trans path (joinPath path k) e2.path
                (pathUnder_joinPath path k)
                (validate_helper_error_path sub m (joinPath path k) e2 hv)
          | ok u =>
              rw [hv] at h
              exact validate_matches_error_path (.rschema sub) rest path e h
      | vstr s =>
          simp only [validateMatches] at h
          have he : e = VErr.typeMismatch (joinPath path k) "dict"
              (typeName (.vstr s)) := by cases h; rfl
          rw [he]
          exact pathUnder_joinPath path k
      | vint n =>
          simp only [validateMatches] at h
          have he : e = VErr.typeMismatch (joinPath path k) "dict"
              (typeName (.vint n)) := by cases h; rfl
          rw [he]
          exact pathUnder_joinPath path k
      | vbool b =>
          simp only [validateMatches] at h
          have he : e = VErr.typeMismatch (joinPath path k) "dict"
              (typeName (.vbool b)) := by cases h; rfl
          rw [he]
          exact pathUnder_joinPath path k
      | vnull =>
          simp only [validateMatches] at h
          have he : e = VErr.typeMismatch (joinPath path k) "dict"
              (typeName .vnull) := by cases h; rfl
          rw [he]
          exact pathUnder_joinPath path k
      | vlist elems =>
          simp only [validateMatches] at h
          have he : e = VErr.typeMismatch (joinPath path k) "dict"
              (typeName (.vlist elems)) := by cases h; rfl
          rw [he]
          exact pathUnder_joinPath path k
termination_by (sizeOf req, ms.length + 1)

end

/-- Claim C2: `_validate_config_helper(S, C, path)` returns without error
if and only if every glob-pattern key in `S` — transitively, through
nested sub-schemas — matches at least one key of the corresponding
subtree of `C` and the runtime type of every matched value agrees with the
requirement; and any `ValidationError` it raises carries a dotted path at
or below `path` (the missing-section error carries the path of the
unmatched pattern, the type-mismatch error that of the offending key, by
construction of `VErr`). -/
theorem c2_validate_iff_spec (schema : List (String × Req))
    (config : List (String × Value)) (path : String) :
    (_validate_config_helper schema config path = Except.ok ()
       ↔ specValid schema config = true)
  ∧ (∀ e, _validate_config_helper schema config path = Except.error e →
       pathUnder path e.path) :=
  ⟨validate_helper_ok_iff schema config path,
   fun e h => validate_helper_error_path schema config path e h⟩

/-- Witness for C2: the acceptance scenario of the spec — the demo config
validates against the demo schema. -/
theorem c2_witness :
    _validate_config_helper demoSchema demoConfig "" = Except.ok () := by
  refine (c2_validate_iff_spec demoSchema demoConfig "").1.mpr ?_
  have h1 : fnmatch "global" "global" = true := by decide
  have h2 : fnmatch "environment_name" "environment_name" = true := by decide
  have h3 : fnmatch "output" "environment_name" = false := by decide
  have h4 : fnmatch "print_debug" "environment_name" = false := by decide
  have h5 : fnmatch "environment_name" "output" = false := by decide
  have h6 : fnmatch "output" "output" = true := by decide
  have h7 : fnmatch "print_debug" "output" = false := by decide
  simp [demoSchema, demoConfig, specValid, specAllAgree, specAgrees,
    matchingEntries, List.filter_cons, List.filter_nil, h1, h2, h3, h4, h5,
    h6, h7, typeMatches]

end EnvBase
